import Mathlib

/-!
Verification of the Protos-Eschaton counter backend.

The repository holds two Google Apps Script sources implementing the same
counter service over a spreadsheet:

* `src/apps.js` (namespace `Apps` below): the main handler, with GET-based
  dispatch (`action=get|bump`), a POST handler falling back to query
  parameters, and maintenance helpers (`resetSlug`).
* `src/unnamed/part_000` (namespace `P000` below): an earlier variant.
  Its `getSheet_` evaluates the identifier `metrics`, which is declared
  nowhere (the file declares `SHEET_NAME = 'metrics'` but never uses it),
  so at run time every call of `getSheet_` throws a ReferenceError before
  touching the sheet.  We model that throw as an `Except.error` carrying
  the ReferenceError message.  Its `doPost` has no try/catch, so errors
  raised below it escape the entry point; we model an escaping exception
  as an `Except.error` at the entry-point result, as opposed to a
  normally returned `Resp` payload.

The sheet is modelled as the list of its data rows.  The header row
`[slug, likes, dislikes, infos]` is left implicit: the scanning loop in
`findRowBySlug_` starts below the header (`i = 1` over the raw data
array), so the code's 1-based sheet row `i + 1` corresponds to index
`i - 1` of this list, and `appendRow` appends at the end.  A cell holds
the JavaScript value stored there: a number (we use the integer fragment,
which is all the service ever writes), a string, or NaN; an empty or
out-of-range cell reads back as the empty string, which is what
`Range.getValue()` yields there.
-/

/-- A spreadsheet cell value: a number, a string, or NaN. -/
inductive Cell where
  | num (n : Int)
  | str (s : String)
  | nan

deriving instance DecidableEq for Cell

/-- JavaScript `String(v)` conversion, as used by the row scan
`String(data[i][0]) === slug`. -/
def cellToString : Cell → String
  | .num n => toString n
  | .str s => s
  | .nan => "NaN"

/-- JavaScript truthiness of a cell value: `0`, the empty string and NaN
are falsy. -/
def Cell.truthy : Cell → Bool
  | .num n => n != 0
  | .str s => s != ""
  | .nan => false

/-- The pattern `v || 0` applied to a cell value. -/
def jsOrZero (c : Cell) : Cell :=
  if c.truthy then c else .num 0

/-- JavaScript binary `+` on cell values: string concatenation when either
side is a string, numeric addition otherwise (NaN absorbs). -/
def jsAdd (a b : Cell) : Cell :=
  match a, b with
  | .str s, b2 => .str (s ++ cellToString b2)
  | a2, .str s => .str (cellToString a2 ++ s)
  | .num m, .num n => .num (m + n)
  | _, _ => .nan

/-- JavaScript `Number(v)` on the integer fragment: `Number('')` is `0`, a
decimal integer string parses, any other string is NaN. -/
def jsNumber (c : Cell) : Cell :=
  match c with
  | .num n => .num n
  | .nan => .nan
  | .str s =>
    if s = "" then .num 0
    else
      match s.toInt? with
      | some n => .num n
      | none => .nan

/-- One data row of the `metrics` sheet: columns 1..4 are
slug, likes, dislikes, infos. -/
structure Row where
  slugCell : Cell
  likes : Cell
  dislikes : Cell
  infos : Cell

deriving instance DecidableEq for Row

/-- The persistent store: the data rows of the sheet, in order. -/
abbrev Store := List Row

/-- The result object of `readCounts_` (and of a successful `bump_`). -/
structure Counts where
  slug : Cell
  likes : Cell
  dislikes : Cell
  infos : Cell

deriving instance DecidableEq for Counts

/-- Read column `col` (1-based, as in the sheet) of a row; cells outside
the four materialised columns read back as the empty string. -/
def getCol (r : Row) (col : Nat) : Cell :=
  if col = 1 then r.slugCell
  else if col = 2 then r.likes
  else if col = 3 then r.dislikes
  else if col = 4 then r.infos
  else .str ""

/-- Write column `col` of a row, leaving the other columns unchanged
(writes outside the four materialised columns are dropped, which no code
path performs). -/
def setCol (r : Row) (col : Nat) (v : Cell) : Row :=
  if col = 1 then { r with slugCell := v }
  else if col = 2 then { r with likes := v }
  else if col = 3 then { r with dislikes := v }
  else if col = 4 then { r with infos := v }
  else r

/-- `getRange(row, col).getValue()` with `i` the 0-based data-row index;
out-of-range reads yield the empty string, as in Sheets. -/
def getCellD : Store → Nat → Nat → Cell
  | [], _, _ => .str ""
  | r :: _, 0, col => getCol r col
  | _ :: rest, i + 1, col => getCellD rest i col

/-- `getRange(row, col).setValue(v)` with `i` the 0-based data-row index. -/
def setCellD : Store → Nat → Nat → Cell → Store
  | [], _, _, _ => []
  | r :: rest, 0, col, v => setCol r col v :: rest
  | r :: rest, i + 1, col, v => r :: setCellD rest i col v

/-- The scanning loop shared by both variants of `findRowBySlug_`: the
first data row whose first cell stringifies to the slug, as a 0-based
index into the data rows (the code returns the 1-based sheet row `i + 1`,
a fixed index shift). -/
def scanSlug (slug : String) : Store → Option Nat
  | [] => none
  | r :: rest =>
    if cellToString r.slugCell = slug then some 0
    else (scanSlug slug rest).map (fun i => i + 1)

/-- The enumerated field set `['likes', 'dislikes', 'infos']`. -/
def validFields : List String := ["likes", "dislikes", "infos"]

/-- The `colMap` object of `bump_`: field name to 1-based column number;
a lookup miss is `undefined`, here `none`. -/
def colMap (field : String) : Option Nat :=
  if field = "likes" then some 2
  else if field = "dislikes" then some 3
  else if field = "infos" then some 4
  else none

/-- A freshly appended row `[slug, 0, 0, 0]`. -/
def newRow (slug : String) : Row :=
  { slugCell := .str slug, likes := .num 0, dislikes := .num 0, infos := .num 0 }

/-- JavaScript `x || d` where `x` is a possibly-absent string parameter
(absent and empty are both falsy). -/
def jsOrDefault (o : Option String) (d : String) : String :=
  match o with
  | some s => if s = "" then d else s
  | none => d

/-- JavaScript `a || b` where both sides are possibly-absent strings. -/
def jsOrOpt (a b : Option String) : Option String :=
  match a with
  | some s => if s = "" then b else some s
  | none => b

/-- The query-parameter set (`e.parameter`) or a parsed JSON body: each
entry point reads at most the `slug` and `field` keys. -/
structure Payload where
  slug : Option String
  field : Option String

/-- A GET request's parameters, as read by `Apps.doGet`. -/
structure GetReq where
  action : Option String
  slug : Option String
  field : Option String

/-- The POST body as seen through `JSON.parse(e.postData.contents || '{}')`:
either it parses to a payload (an absent body parses to `{}`), or the
parse throws (malformed JSON, or `e.postData` itself absent). -/
inductive Body where
  | parses (p : Payload)
  | malformed

/-- A JSON response built by `createJsonResponse`: either a counts object
or an `{error: msg}` object. -/
inductive Resp where
  | ok (c : Counts)
  | err (msg : String)

deriving instance DecidableEq for Resp

namespace Apps

/-- apps.js `findRowBySlug_`: linear scan for the slug, `null` when
absent. -/
def findRowBySlug_ (st : Store) (slug : String) : Option Nat :=
  scanSlug slug st

/-- apps.js `ensureRow_`: return the existing row's index, or append
`[slug, 0, 0, 0]` and return the index of the appended row
(`getLastRow`). -/
def ensureRow_ (st : Store) (slug : String) : Nat × Store :=
  match findRowBySlug_ st slug with
  | some row => (row, st)
  | none => (st.length, st ++ [newRow slug])

/-- apps.js `readCounts_`: zeros without touching the sheet when the slug
is unknown, otherwise the four cells of the row with `|| 0` applied to
each counter. -/
def readCounts_ (st : Store) (slug : String) : Counts :=
  match findRowBySlug_ st slug with
  | none => { slug := .str slug, likes := .num 0, dislikes := .num 0, infos := .num 0 }
  | some i =>
    { slug := getCellD st i 1,
      likes := jsOrZero (getCellD st i 2),
      dislikes := jsOrZero (getCellD st i 3),
      infos := jsOrZero (getCellD st i 4) }

/-- The message of the `Error` thrown by apps.js `bump_` on a bad field. -/
def invalidFieldMsg (field : String) : String :=
  "Invalid field: " ++ field ++ ". Must be likes, dislikes, or infos."

/-- apps.js `bump_`: note that `ensureRow_` runs BEFORE the field is
validated against `colMap`, exactly as in the source, so the row is
already ensured (possibly appended) when an invalid field makes the
function throw.  On a valid field it reads `getValue() || 0`, writes back
`value + 1`, and returns `readCounts_`.  The error component models the
thrown `Error`; the second component is the store after the call, since
sheet mutations performed before a throw persist. -/
def bump_ (st : Store) (slug : String) (field : String) : Except String Counts × Store :=
  let er := ensureRow_ st slug
  match colMap field with
  | none => (.error (invalidFieldMsg field), er.2)
  | some col =>
    let currentVal := jsOrZero (getCellD er.2 er.1 col)
    let newVal := jsAdd currentVal (.num 1)
    let st2 := setCellD er.2 er.1 col newVal
    (.ok (readCounts_ st2 slug), st2)

/-- apps.js `resetSlug`: zero the three counter columns of the matched
row (the source writes `[[0,0,0]]` over columns 2..4 in one `setValues`;
three single-cell writes are the same update); no-op when the slug has no
row. -/
def resetSlug (st : Store) (slug : String) : Store :=
  match findRowBySlug_ st slug with
  | some row =>
    setCellD (setCellD (setCellD st row 2 (.num 0)) row 3 (.num 0)) row 4 (.num 0)
  | none => st

/-- The `{error}` message of apps.js `doGet` for a missing/bad field. -/
def getInvalidMsg : String :=
  "Invalid or missing field parameter. Must be: likes, dislikes, or infos"

/-- apps.js `doGet`: dispatch on `action` (default `get`), slug default
`home`; the bump path validates `!field || !includes(field)` before
calling `bump_`; the whole body sits in a try/catch whose handler returns
`{error: error.toString()}` (an `Error` stringifies with the `Error: `
prelude), so no exception escapes. -/
def doGet (st : Store) (e : GetReq) : Resp × Store :=
  let action := jsOrDefault e.action "get"
  let slug := jsOrDefault e.slug "home"
  if action = "get" then
    (.ok (readCounts_ st slug), st)
  else if action = "bump" then
    match e.field with
    | none => (.err getInvalidMsg, st)
    | some f =>
      if f ≠ "" ∧ f ∈ validFields then
        match bump_ st slug f with
        | (.ok c, st2) => (.ok c, st2)
        | (.error m, st2) => (.err ("Error: " ++ m), st2)
      else (.err getInvalidMsg, st)
  else (.err ("Unknown action: " ++ action ++ ". Valid actions are: get, bump"), st)

/-- The `{error}` message of apps.js `doPost` for a missing/bad field. -/
def postInvalidMsg : String :=
  "Invalid or missing field. Must be: likes, dislikes, or infos"

/-- apps.js `doPost`: the payload is the parsed body, or `e.parameter` when
parsing throws; slug is `payload.slug || e.parameter.slug || 'home'`,
field is `payload.field || e.parameter.field`; the field is validated
before `bump_`; the whole body sits in a try/catch, so no exception
escapes. -/
def doPost (st : Store) (body : Body) (param : Payload) : Resp × Store :=
  let payload :=
    match body with
    | .parses p => p
    | .malformed => param
  let slug := jsOrDefault (jsOrOpt payload.slug param.slug) "home"
  let fieldParam := jsOrOpt payload.field param.field
  match fieldParam with
  | none => (.err postInvalidMsg, st)
  | some f =>
    if f ≠ "" ∧ f ∈ validFields then
      match bump_ st slug f with
      | (.ok c, st2) => (.ok c, st2)
      | (.error m, st2) => (.err ("Error: " ++ m), st2)
    else (.err postInvalidMsg, st)

end Apps

namespace P000

/-- The message of the ReferenceError raised by part_000's `getSheet_`:
its body evaluates the bare identifier `metrics`
(`ss.getSheetByName(metrics)`), which is declared nowhere — the file
declares `SHEET_NAME = 'metrics'` but never uses it. -/
def refErr : String := "ReferenceError: metrics is not defined"

/-- part_000 `getSheet_`: throws the ReferenceError on every call, before
performing any sheet access, so it never mutates anything. -/
def getSheet_ : Except String Unit := .error refErr

/-- part_000 `findRowBySlug_`: calls `getSheet_` first (which throws);
the scan after it is the same loop as in apps.js. -/
def findRowBySlug_ (st : Store) (slug : String) : Except String (Option Nat) :=
  match getSheet_ with
  | .error e => .error e
  | .ok _ => .ok (scanSlug slug st)

/-- part_000 `ensureRow_`: `getSheet_`, then find-or-append. -/
def ensureRow_ (st : Store) (slug : String) : Except String (Nat × Store) :=
  match getSheet_ with
  | .error e => .error e
  | .ok _ =>
    match findRowBySlug_ st slug with
    | .error e => .error e
    | .ok (some row) => .ok (row, st)
    | .ok none => .ok (st.length, st ++ [newRow slug])

/-- part_000 `readCounts_`: find the row, get the sheet, then either
synthesize zeros or read the four cells raw — this variant applies no
`|| 0` to the counters. -/
def readCounts_ (st : Store) (slug : String) : Except String Counts :=
  match findRowBySlug_ st slug with
  | .error e => .error e
  | .ok row =>
    match getSheet_ with
    | .error e => .error e
    | .ok _ =>
      match row with
      | none => .ok { slug := .str slug, likes := .num 0, dislikes := .num 0, infos := .num 0 }
      | some i =>
        .ok { slug := getCellD st i 1,
              likes := getCellD st i 2,
              dislikes := getCellD st i 3,
              infos := getCellD st i 4 }

/-- part_000 `bump_`: unlike apps.js, it validates the field FIRST
(`includes` on a possibly-undefined field), throwing `Invalid field`
without touching the sheet; only then does it call `getSheet_` (which
throws the ReferenceError) and, were that to succeed, ensure the row and
write `Number(getValue() || 0) + 1`.  The store component is the store
after the call. -/
def bump_ (st : Store) (slug : String) (field : Option String) : Except String Counts × Store :=
  match field with
  | none => (.error "Invalid field", st)
  | some f =>
    if f ∈ validFields then
      match getSheet_ with
      | .error e => (.error e, st)
      | .ok _ =>
        match ensureRow_ st slug with
        | .error e => (.error e, st)
        | .ok (row, st1) =>
          let col := (colMap f).getD 0
          let newVal := jsAdd (jsNumber (jsOrZero (getCellD st1 row col))) (.num 1)
          let st2 := setCellD st1 row col newVal
          match readCounts_ st2 slug with
          | .error e => (.error e, st2)
          | .ok c => (.ok c, st2)
    else (.error "Invalid field", st)

/-- part_000 `doGet`: `(e && e.parameter.slug) || 'home'`, then
`readCounts_`.  There is no try/catch, so an error thrown below escapes
the entry point (the `Except.error` case); reads never mutate the store,
so no store is returned. -/
def doGet (st : Store) (e : Option Payload) : Except String Resp :=
  let slug :=
    jsOrDefault
      (match e with
       | some p => p.slug
       | none => none) "home"
  match readCounts_ st slug with
  | .error m => .error m
  | .ok c => .ok (.ok c)

/-- part_000 `doPost`: on a malformed body the inner `catch (_) {}` leaves
`payload = {}` — the query parameters `param` are never consulted, unlike
apps.js.  There is no outer try/catch, so any error thrown by `bump_`
escapes the entry point (the `Except.error` case). -/
def doPost (st : Store) (body : Body) (_param : Payload) : Except String Resp × Store :=
  let payload :=
    match body with
    | .parses p => p
    | .malformed => { slug := none, field := none }
  let slug := jsOrDefault payload.slug "home"
  match bump_ st slug payload.field with
  | (.error m, st2) => (.error m, st2)
  | (.ok c, st2) => (.ok (.ok c), st2)

end P000

/-- Select a counter of a result object by field name. -/
def Counts.fieldVal (c : Counts) (f : String) : Cell :=
  if f = "likes" then c.likes
  else if f = "dislikes" then c.dislikes
  else if f = "infos" then c.infos
  else .str ""

namespace Apps

/-- The store left behind by one `bump_` call. -/
def bumpStore (st : Store) (slug : String) (field : String) : Store :=
  (bump_ st slug field).2

/-- The store after `n` sequential `bump_` calls for the same slug and
field, with no other operation interleaved. -/
def bumpN : Nat → Store → String → String → Store
  | 0, st, _, _ => st
  | n + 1, st, slug, field => bumpStore (bumpN n st slug field) slug field

/-- Store states reachable from the empty table by sequential public
operations (entry-point calls) plus the operator maintenance call
`resetSlug`. -/
inductive Reachable : Store → Prop where
  | init : Reachable []
  | get (st : Store) (e : GetReq) : Reachable st → Reachable (doGet st e).2
  | post (st : Store) (b : Body) (p : Payload) : Reachable st → Reachable (doPost st b p).2
  | reset (st : Store) (s : String) : Reachable st → Reachable (resetSlug st s)

/-- The stringified slugs of the rows, in scan order. -/
def slugList (st : Store) : List String :=
  st.map (fun r => cellToString r.slugCell)

/-- At most one row per slug. -/
def SlugsNodup (st : Store) : Prop := (slugList st).Nodup

/-- A counter cell holding a non-negative integer. -/
def counterNat (c : Cell) : Prop := ∃ n : Int, c = .num n ∧ 0 ≤ n

/-- Every counter cell of every row holds a non-negative integer. -/
def CountersNat (st : Store) : Prop :=
  ∀ i, i < st.length →
    counterNat (getCellD st i 2) ∧ counterNat (getCellD st i 3) ∧ counterNat (getCellD st i 4)

/-- A cell did not decrease: unchanged, or a numeric increase. -/
def cellLe (a b : Cell) : Prop :=
  a = b ∨ ∃ m n : Int, a = .num m ∧ b = .num n ∧ m ≤ n

/-- Pointwise non-decrease of the table: every existing row keeps its
slug and none of its counters decreases (fresh rows may be appended
after the existing ones). -/
def storeLe (st st2 : Store) : Prop :=
  st.length ≤ st2.length ∧
    ∀ i, i < st.length →
      getCellD st2 i 1 = getCellD st i 1 ∧
      cellLe (getCellD st i 2) (getCellD st2 i 2) ∧
      cellLe (getCellD st i 3) (getCellD st2 i 3) ∧
      cellLe (getCellD st i 4) (getCellD st2 i 4)

/-- What `resetSlug` does to the table, cell by cell: the length is kept,
every slug cell is kept, the three counters of the row matched by the
scan become 0, and every other cell is untouched. -/
def resetSpec (st : Store) (s : String) : Prop :=
  (resetSlug st s).length = st.length ∧
  ∀ i, i < st.length →
    getCellD (resetSlug st s) i 1 = getCellD st i 1 ∧
    (findRowBySlug_ st s = some i →
      getCellD (resetSlug st s) i 2 = .num 0 ∧
      getCellD (resetSlug st s) i 3 = .num 0 ∧
      getCellD (resetSlug st s) i 4 = .num 0) ∧
    (findRowBySlug_ st s ≠ some i →
      getCellD (resetSlug st s) i 2 = getCellD st i 2 ∧
      getCellD (resetSlug st s) i 3 = getCellD st i 3 ∧
      getCellD (resetSlug st s) i 4 = getCellD st i 4)

end Apps

theorem jsOrZero_num (k : Int) : jsOrZero (.num k) = .num k := by
  unfold jsOrZero Cell.truthy
  split_ifs with h
  · rfl
  · simp at h
    rw [h]

theorem validFields_cases {f : String} (hf : f ∈ validFields) :
    f = "likes" ∨ f = "dislikes" ∨ f = "infos" := by
  simpa [validFields] using hf

theorem colMap_valid {f : String} (hf : f ∈ validFields) :
    ∃ col, colMap f = some col ∧ (col = 2 ∨ col = 3 ∨ col = 4) := by
  rcases validFields_cases hf with h | h | h <;> subst h <;> simp [colMap]

theorem colMap_invalid {f : String} (hf : f ∉ validFields) : colMap f = none := by
  unfold colMap
  split_ifs with h1 h2 h3
  · exact absurd (by simp [validFields, h1]) hf
  · exact absurd (by simp [validFields, h2]) hf
  · exact absurd (by simp [validFields, h3]) hf
  · rfl

theorem colMap_ne_of_ne {f g : String} {cf cg : Nat} (hf : f ∈ validFields)
    (hg : g ∈ validFields) (hne : g ≠ f) (h1 : colMap f = some cf)
    (h2 : colMap g = some cg) : cg ≠ cf := by
  rcases validFields_cases hf with h | h | h <;>
    rcases validFields_cases hg with h3 | h3 | h3 <;>
      subst h <;> subst h3 <;> simp_all [colMap] <;> omega

theorem scanSlug_lt {s : String} {st : Store} {i : Nat} (h : scanSlug s st = some i) :
    i < st.length := by
  induction st generalizing i with
  | nil => simp [scanSlug] at h
  | cons r rest ih =>
    unfold scanSlug at h
    split at h
    · cases h
      simp
    · cases hm : scanSlug s rest with
      | none => rw [hm] at h; simp at h
      | some j =>
        rw [hm] at h
        simp at h
        have hj := ih hm
        simp only [List.length_cons]
        omega

theorem scanSlug_none_iff (s : String) (st : Store) :
    scanSlug s st = none ↔ ∀ r ∈ st, cellToString r.slugCell ≠ s := by
  induction st with
  | nil => simp [scanSlug]
  | cons r rest ih =>
    unfold scanSlug
    by_cases hc : cellToString r.slugCell = s
    · simp [hc]
    · simp [hc, ih]

theorem scanSlug_append_none {s : String} {st : Store} (h : scanSlug s st = none) (r : Row) :
    scanSlug s (st ++ [r]) =
      if cellToString r.slugCell = s then some st.length else none := by
  induction st with
  | nil => simp [scanSlug]
  | cons a rest ih =>
    have hc : cellToString a.slugCell ≠ s := by
      intro hcc
      unfold scanSlug at h
      rw [if_pos hcc] at h
      exact Option.noConfusion h
    have hrest : scanSlug s rest = none := by
      unfold scanSlug at h
      rw [if_neg hc] at h
      exact Option.map_eq_none'.mp h
    have ihh := ih hrest
    simp only [List.cons_append]
    unfold scanSlug
    rw [if_neg hc, ihh]
    by_cases hcr : cellToString r.slugCell = s
    · simp [hcr]
    · simp [hcr]

theorem scanSlug_append_some {s : String} {st : Store} {i : Nat}
    (h : scanSlug s st = some i) (l : Store) : scanSlug s (st ++ l) = some i := by
  induction st generalizing i with
  | nil => simp [scanSlug] at h
  | cons a rest ih =>
    simp only [List.cons_append]
    unfold scanSlug at h ⊢
    by_cases hc : cellToString a.slugCell = s
    · rw [if_pos hc] at h ⊢
      exact h
    · rw [if_neg hc] at h ⊢
      cases hm : scanSlug s rest with
      | none => rw [hm] at h; simp at h
      | some j =>
        rw [hm] at h
        rw [ih hm]
        exact h

theorem setCol_slugCell (r : Row) (col : Nat) (v : Cell) (h : col ≠ 1) :
    (setCol r col v).slugCell = r.slugCell := by
  unfold setCol
  split_ifs with h1 h2 h3 h4
  · exact absurd h1 h
  · rfl
  · rfl
  · rfl
  · rfl

theorem getCol_setCol_same (r : Row) (col : Nat) (v : Cell)
    (h : col = 1 ∨ col = 2 ∨ col = 3 ∨ col = 4) :
    getCol (setCol r col v) col = v := by
  rcases h with h | h | h | h <;> subst h <;> rfl

theorem getCol_setCol_other (r : Row) (col col2 : Nat) (v : Cell) (h : col ≠ col2) :
    getCol (setCol r col v) col2 = getCol r col2 := by
  unfold getCol setCol
  split_ifs <;> simp_all

theorem setCol_setCol_same (r : Row) (col : Nat) (v w : Cell) :
    setCol (setCol r col v) col w = setCol r col w := by
  unfold setCol
  split_ifs <;> rfl

theorem setCellD_length (st : Store) (i col : Nat) (v : Cell) :
    (setCellD st i col v).length = st.length := by
  induction st generalizing i with
  | nil => rfl
  | cons r rest ih =>
    cases i with
    | zero => rfl
    | succ j => simp [setCellD, ih]

theorem getCellD_setCellD_same (st : Store) (i col : Nat) (v : Cell)
    (hi : i < st.length) (hcol : col = 1 ∨ col = 2 ∨ col = 3 ∨ col = 4) :
    getCellD (setCellD st i col v) i col = v := by
  induction st generalizing i with
  | nil => simp at hi
  | cons r rest ih =>
    cases i with
    | zero => simpa [setCellD, getCellD] using getCol_setCol_same r col v hcol
    | succ j =>
      simp only [setCellD, getCellD]
      exact ih j (by simpa using hi)

theorem getCellD_setCellD_other (st : Store) (i j col col2 : Nat) (v : Cell)
    (h : i ≠ j ∨ col ≠ col2) :
    getCellD (setCellD st i col v) j col2 = getCellD st j col2 := by
  induction st generalizing i j with
  | nil => rfl
  | cons r rest ih =>
    cases i with
    | zero =>
      cases j with
      | zero =>
        have hcol : col ≠ col2 := by
          rcases h with h | h
          · exact absurd rfl h
          · exact h
        simpa [setCellD, getCellD] using getCol_setCol_other r col col2 v hcol
      | succ k => simp [setCellD, getCellD]
    | succ i2 =>
      cases j with
      | zero => simp [setCellD, getCellD]
      | succ k =>
        simp only [setCellD, getCellD]
        apply ih
        rcases h with h | h
        · left
          omega
        · right
          exact h

theorem getCellD_append_right (st : Store) (r : Row) (col : Nat) :
    getCellD (st ++ [r]) st.length col = getCol r col := by
  induction st with
  | nil => rfl
  | cons a rest ih => simpa [getCellD] using ih

theorem getCellD_append_left (st l : Store) (i col : Nat) (h : i < st.length) :
    getCellD (st ++ l) i col = getCellD st i col := by
  induction st generalizing i with
  | nil => simp at h
  | cons a rest ih =>
    cases i with
    | zero => rfl
    | succ j =>
      simp only [List.cons_append, getCellD]
      exact ih j (by simpa using h)

theorem setCellD_append (st : Store) (r : Row) (col : Nat) (v : Cell) :
    setCellD (st ++ [r]) st.length col v = st ++ [setCol r col v] := by
  induction st with
  | nil => rfl
  | cons a rest ih => simp [setCellD, ih]

theorem scanSlug_setCellD (s : String) (st : Store) (i col : Nat) (v : Cell) (h : col ≠ 1) :
    scanSlug s (setCellD st i col v) = scanSlug s st := by
  induction st generalizing i with
  | nil => rfl
  | cons r rest ih =>
    cases i with
    | zero =>
      show scanSlug s (setCol r col v :: rest) = scanSlug s (r :: rest)
      unfold scanSlug
      rw [setCol_slugCell r col v h]
    | succ j =>
      show scanSlug s (r :: setCellD rest j col v) = scanSlug s (r :: rest)
      unfold scanSlug
      rw [ih j]

theorem slugList_setCellD (st : Store) (i col : Nat) (v : Cell) (h : col ≠ 1) :
    Apps.slugList (setCellD st i col v) = Apps.slugList st := by
  induction st generalizing i with
  | nil => rfl
  | cons r rest ih =>
    cases i with
    | zero =>
      show Apps.slugList (setCol r col v :: rest) = Apps.slugList (r :: rest)
      simp [Apps.slugList, setCol_slugCell r col v h]
    | succ j =>
      show Apps.slugList (r :: setCellD rest j col v) = Apps.slugList (r :: rest)
      simp [Apps.slugList] at ih ⊢
      exact ih j

theorem ensureRow_found {st : Store} {s : String} {i : Nat} (h : scanSlug s st = some i) :
    Apps.ensureRow_ st s = (i, st) := by
  unfold Apps.ensureRow_ Apps.findRowBySlug_
  rw [h]

theorem ensureRow_new {st : Store} {s : String} (h : scanSlug s st = none) :
    Apps.ensureRow_ st s = (st.length, st ++ [newRow s]) := by
  unfold Apps.ensureRow_ Apps.findRowBySlug_
  rw [h]

theorem readCounts_none {st : Store} {s : String} (h : scanSlug s st = none) :
    Apps.readCounts_ st s =
      { slug := .str s, likes := .num 0, dislikes := .num 0, infos := .num 0 } := by
  unfold Apps.readCounts_ Apps.findRowBySlug_
  rw [h]

theorem readCounts_found {st : Store} {s : String} {i : Nat} (h : scanSlug s st = some i) :
    Apps.readCounts_ st s =
      { slug := getCellD st i 1,
        likes := jsOrZero (getCellD st i 2),
        dislikes := jsOrZero (getCellD st i 3),
        infos := jsOrZero (getCellD st i 4) } := by
  unfold Apps.readCounts_ Apps.findRowBySlug_
  rw [h]

theorem fieldVal_readCounts_found {st : Store} {s : String} {i col : Nat} {f : String}
    (hs : scanSlug s st = some i) (hcol : colMap f = some col) :
    (Apps.readCounts_ st s).fieldVal f = jsOrZero (getCellD st i col) := by
  rw [readCounts_found hs]
  unfold colMap at hcol
  split_ifs at hcol with h1 h2 h3
  · cases hcol
    subst h1
    rfl
  · cases hcol
    subst h2
    rfl
  · cases hcol
    subst h3
    rfl

theorem fieldVal_zeros {s : String} {f : String} (hf : f ∈ validFields) :
    Counts.fieldVal
      { slug := .str s, likes := .num 0, dislikes := .num 0, infos := .num 0 } f = .num 0 := by
  rcases validFields_cases hf with h | h | h <;> subst h <;> rfl

theorem bump_valid_eq {f : String} {col : Nat} (st : Store) (s : String)
    (hcol : colMap f = some col) :
    Apps.bump_ st s f =
      (.ok (Apps.readCounts_
          (setCellD (Apps.ensureRow_ st s).2 (Apps.ensureRow_ st s).1 col
            (jsAdd (jsOrZero (getCellD (Apps.ensureRow_ st s).2 (Apps.ensureRow_ st s).1 col))
              (.num 1))) s),
        setCellD (Apps.ensureRow_ st s).2 (Apps.ensureRow_ st s).1 col
          (jsAdd (jsOrZero (getCellD (Apps.ensureRow_ st s).2 (Apps.ensureRow_ st s).1 col))
            (.num 1))) := by
  unfold Apps.bump_
  rw [hcol]

theorem bump_invalid_eq {f : String} (st : Store) (s : String) (hf : f ∉ validFields) :
    Apps.bump_ st s f = (.error (Apps.invalidFieldMsg f), (Apps.ensureRow_ st s).2) := by
  unfold Apps.bump_
  rw [colMap_invalid hf]

theorem newRow_slugCell (s : String) : cellToString (newRow s).slugCell = s := rfl

theorem getCol_newRow_counter (s : String) {col : Nat} (h : col = 2 ∨ col = 3 ∨ col = 4) :
    getCol (newRow s) col = .num 0 := by
  rcases h with h | h | h <;> subst h <;> rfl

/-- C1 counterexample: apps.js `bump_` with an invalid field on a store
with no row for the slug fails with the InvalidField error, yet DOES
create a row for the slug: `ensureRow_` runs before the field validation,
so the empty store has gained a row for "s" (found by the scan) when the
call fails — falsifying the claim's "no row is created for s". -/
theorem c1_counterexample :
    (Apps.bump_ [] "s" "bogus").1 = .error (Apps.invalidFieldMsg "bogus") ∧
    Apps.findRowBySlug_ (Apps.bump_ [] "s" "bogus").2 "s" = some 0 ∧
    (Apps.bump_ [] "s" "bogus").2 ≠ ([] : Store) := by
  refine ⟨rfl, rfl, by decide⟩

/-- C1 (amended): for every store, slug and field outside the enumerated
set, `bump_` fails with the InvalidField error in both variants, and every
counter for the slug is unchanged as observed through `readCounts_`;
part_000's `bump_` validates first and leaves the store fully unchanged,
while apps.js's `bump_` has already run `ensureRow_`, so its post-state is
the ensured store — for a fresh slug this has appended the all-zero row. -/
theorem c1_invalid_field (st : Store) (s f : String) (hf : f ∉ validFields) :
    (Apps.bump_ st s f).1 = .error (Apps.invalidFieldMsg f) ∧
    (Apps.bump_ st s f).2 = (Apps.ensureRow_ st s).2 ∧
    Apps.readCounts_ (Apps.bump_ st s f).2 s = Apps.readCounts_ st s ∧
    P000.bump_ st s (some f) = (.error "Invalid field", st) ∧
    P000.bump_ st s none = (.error "Invalid field", st) := by
  have hb := bump_invalid_eq st s hf
  refine ⟨by rw [hb], by rw [hb], ?_, ?_, rfl⟩
  · rw [hb]
    cases hscan : scanSlug s st with
    | some i => rw [ensureRow_found hscan]
    | none =>
      rw [ensureRow_new hscan]
      have happ := scanSlug_append_none hscan (newRow s)
      rw [newRow_slugCell, if_pos rfl] at happ
      rw [readCounts_none hscan, readCounts_found happ]
      rw [getCellD_append_right st (newRow s) 1, getCellD_append_right st (newRow s) 2,
        getCellD_append_right st (newRow s) 3, getCellD_append_right st (newRow s) 4]
      rfl
  · simp only [P000.bump_]
    rw [if_neg hf]

/-- C1 witness: the amended statement at the empty store, slug "home",
field "bogus". -/
theorem c1_invalid_field_witness :
    (Apps.bump_ [] "home" "bogus").1 = .error (Apps.invalidFieldMsg "bogus") ∧
    (Apps.bump_ [] "home" "bogus").2 = (Apps.ensureRow_ [] "home").2 ∧
    Apps.readCounts_ (Apps.bump_ [] "home" "bogus").2 "home" = Apps.readCounts_ [] "home" ∧
    P000.bump_ [] "home" (some "bogus") = (.error "Invalid field", []) ∧
    P000.bump_ [] "home" none = (.error "Invalid field", []) :=
  c1_invalid_field [] "home" "bogus" (by decide)

/-- C3: the claim says `readCounts` never fails, but in the part_000
variant EVERY call of `readCounts_` — and hence of its caller `doGet` —
throws the ReferenceError raised inside `getSheet_` by the undefined
identifier `metrics`, for every store and every slug.  (The apps.js
`readCounts_` is a total function of the store in this model, and its
zero-synthesis for unknown slugs is proved at C6.) -/
theorem c3_readCounts_always_throws (st : Store) (s : String) :
    P000.readCounts_ st s = .error P000.refErr ∧
    P000.doGet st (some { slug := some s, field := none }) = .error P000.refErr ∧
    P000.doGet st none = .error P000.refErr :=
  ⟨rfl, rfl, rfl⟩

/-- C4 counterexample: in the part_000 variant, `doPost` on a malformed
body (so the field is missing) lets `bump_`'s InvalidField error escape
the entry point as a raised exception — the `Except.error` at the
entry-point result — instead of returning an `{error: msg}` payload. -/
theorem c4_counterexample :
    (P000.doPost [] Body.malformed { slug := none, field := none }).1 =
      Except.error "Invalid field" := rfl

/-- C4 (amended): in apps.js both entry points surface every taxonomy
error (InvalidField, UnknownAction; MalformedPayload is recovered, see
C5) as an `{error: msg}` payload with the store untouched, and by the
surrounding try/catch no exception escapes them (they are total functions
into `Resp` here); in the part_000 variant `doPost` has no handler, so
the InvalidField error escapes it as a raised exception. -/
theorem c4_error_payloads (st : Store) (e : GetReq) (p2 param : Payload) :
    (e.action = some "bump" → e.field = none →
      Apps.doGet st e = (.err Apps.getInvalidMsg, st)) ∧
    (∀ f2, e.action = some "bump" → e.field = some f2 → f2 ∉ validFields →
      Apps.doGet st e = (.err Apps.getInvalidMsg, st)) ∧
    (∀ a, e.action = some a → a ≠ "" → a ≠ "get" → a ≠ "bump" →
      Apps.doGet st e =
        (.err ("Unknown action: " ++ a ++ ". Valid actions are: get, bump"), st)) ∧
    (∀ f2, p2.field = some f2 → f2 ≠ "" → f2 ∉ validFields →
      Apps.doPost st (.parses p2) param = (.err Apps.postInvalidMsg, st)) ∧
    (P000.doPost st Body.malformed param).1 = Except.error "Invalid field" := by
  refine ⟨?_, ?_, ?_, ?_, rfl⟩
  · intro ha hf
    simp [Apps.doGet, ha, hf, jsOrDefault]
  · intro f2 ha hf hmem
    simp [Apps.doGet, ha, hf, jsOrDefault, hmem]
  · intro a ha h1 h2 h3
    simp [Apps.doGet, ha, jsOrDefault, h1, h2, h3]
  · intro f2 hf hne hmem
    simp [Apps.doPost, hf, jsOrOpt, hne, hmem]

/-- C4 witness: the amended statement at concrete requests on the empty
store. -/
theorem c4_error_payloads_witness :
    Apps.doGet [] { action := some "bump", slug := none, field := none } =
      (.err Apps.getInvalidMsg, []) ∧
    Apps.doGet [] { action := some "bump", slug := none, field := some "bogus" } =
      (.err Apps.getInvalidMsg, []) ∧
    Apps.doGet [] { action := some "nope", slug := none, field := none } =
      (.err ("Unknown action: " ++ "nope" ++ ". Valid actions are: get, bump"), []) ∧
    Apps.doPost [] (.parses { slug := none, field := some "bogus" })
        { slug := none, field := none } = (.err Apps.postInvalidMsg, []) ∧
    (P000.doPost [] Body.malformed { slug := none, field := none }).1 =
      Except.error "Invalid field" := by
  refine ⟨?_, ?_, ?_, ?_, ?_⟩
  · exact (c4_error_payloads [] { action := some "bump", slug := none, field := none }
      { slug := none, field := none } { slug := none, field := none }).1 rfl rfl
  · exact (c4_error_payloads [] { action := some "bump", slug := none, field := some "bogus" }
      { slug := none, field := none } { slug := none, field := none }).2.1 "bogus" rfl rfl
      (by decide)
  · exact (c4_error_payloads [] { action := some "nope", slug := none, field := none }
      { slug := none, field := none } { slug := none, field := none }).2.2.1 "nope" rfl
      (by decide) (by decide) (by decide)
  · exact (c4_error_payloads [] { action := none, slug := none, field := none }
      { slug := none, field := some "bogus" } { slug := none, field := none }).2.2.2.1 "bogus"
      rfl (by decide) (by decide)
  · exact (c4_error_payloads [] { action := none, slug := none, field := none }
      { slug := none, field := none } { slug := none, field := none }).2.2.2.2

/-- C5 counterexample: part_000's `doPost` does NOT fall back to the query
parameters on a malformed body: with query parameters carrying a valid
request (slug "x", field "likes") and an unparseable body, the part_000
request aborts with an uncaught InvalidField error — it neither proceeds
nor consults the query parameters — while apps.js's `doPost` on the same
input proceeds and performs the bump. -/
theorem c5_counterexample :
    P000.doPost [] Body.malformed { slug := some "x", field := some "likes" } =
      (Except.error "Invalid field", []) ∧
    Apps.doPost [] Body.malformed { slug := some "x", field := some "likes" } =
      (.ok { slug := .str "x", likes := .num 1, dislikes := .num 0, infos := .num 0 },
        [{ slugCell := .str "x", likes := .num 1, dislikes := .num 0, infos := .num 0 }]) := by
  constructor
  · rfl
  · decide

/-- C5 (amended): on an unparseable body, apps.js's `doPost` uses the
query parameters as the payload — it behaves exactly as if the body had
parsed to them — and proceeds; part_000's `doPost` instead proceeds with
the empty payload, ignoring the query parameters entirely. -/
theorem c5_malformed_fallback (st : Store) (param : Payload) :
    Apps.doPost st Body.malformed param = Apps.doPost st (Body.parses param) param ∧
    P000.doPost st Body.malformed param =
      P000.doPost st (Body.parses { slug := none, field := none }) param :=
  ⟨rfl, rfl⟩

/-- C6: apps.js `readCounts_` on a slug with no row returns the synthesized
zero object, and a slug-read request mutates nothing (`readCounts_` is a
pure function of the store, and the read path of `doGet` returns the store
unchanged); in the part_000 variant the same call instead throws the
ReferenceError from `getSheet_` (the undefined identifier `metrics`). -/
theorem c6_unknown_slug_reads_zero (st : Store) (s : String)
    (h : Apps.findRowBySlug_ st s = none) :
    Apps.readCounts_ st s =
      { slug := .str s, likes := .num 0, dislikes := .num 0, infos := .num 0 } ∧
    (∀ e : GetReq, e.action = none → (Apps.doGet st e).2 = st) ∧
    P000.readCounts_ st s = .error P000.refErr := by
  refine ⟨readCounts_none h, ?_, rfl⟩
  intro e he
  simp [Apps.doGet, he, jsOrDefault]

/-- C6 witness: the statement at the empty store and slug "nonexistent". -/
theorem c6_unknown_slug_reads_zero_witness :
    Apps.readCounts_ [] "nonexistent" =
      { slug := .str "nonexistent", likes := .num 0, dislikes := .num 0, infos := .num 0 } ∧
    (Apps.doGet [] { action := none, slug := some "nonexistent", field := none }).2 = [] ∧
    P000.readCounts_ [] "nonexistent" = .error P000.refErr :=
  ⟨(c6_unknown_slug_reads_zero [] "nonexistent" rfl).1,
    (c6_unknown_slug_reads_zero [] "nonexistent" rfl).2.1
      { action := none, slug := some "nonexistent", field := none } rfl,
    (c6_unknown_slug_reads_zero [] "nonexistent" rfl).2.2⟩

/-- C9: with no slug parameter, every entry point behaves exactly as the
same request with slug "home": apps.js `doGet`; apps.js `doPost` (slug
absent from both the payload and the query parameters); part_000 `doGet`
(for an absent event and for an absent slug); part_000 `doPost` (its
payload is the only slug source). -/
theorem c9_default_slug_home (st : Store) :
    (∀ e : GetReq, e.slug = none →
      Apps.doGet st e = Apps.doGet st { e with slug := some "home" }) ∧
    (∀ p param : Payload, p.slug = none → param.slug = none →
      Apps.doPost st (.parses p) param =
        Apps.doPost st (.parses { p with slug := some "home" }) param) ∧
    (P000.doGet st none = P000.doGet st (some { slug := some "home", field := none })) ∧
    (∀ p : Payload, p.slug = none →
      P000.doGet st (some p) = P000.doGet st (some { p with slug := some "home" })) ∧
    (∀ p param : Payload, p.slug = none →
      P000.doPost st (.parses p) param =
        P000.doPost st (.parses { p with slug := some "home" }) param) := by
  refine ⟨?_, ?_, rfl, ?_, ?_⟩
  · intro e he
    obtain ⟨a, es, f⟩ := e
    change es = none at he
    subst he
    rfl
  · intro p param hp hparam
    obtain ⟨ps, pf⟩ := p
    obtain ⟨qs, qf⟩ := param
    change ps = none at hp
    change qs = none at hparam
    subst hp
    subst hparam
    rfl
  · intro p hp
    obtain ⟨ps, pf⟩ := p
    change ps = none at hp
    subst hp
    rfl
  · intro p param hp
    obtain ⟨ps, pf⟩ := p
    change ps = none at hp
    subst hp
    rfl

/-- C9 witness: the defaulting equalities at concrete slug-less requests on
the empty store. -/
theorem c9_default_slug_home_witness :
    Apps.doGet [] { action := none, slug := none, field := none } =
      Apps.doGet [] { action := none, slug := some "home", field := none } ∧
    Apps.doPost [] (.parses { slug := none, field := some "likes" })
        { slug := none, field := none } =
      Apps.doPost [] (.parses { slug := some "home", field := some "likes" })
        { slug := none, field := none } ∧
    P000.doGet [] none = P000.doGet [] (some { slug := some "home", field := none }) ∧
    P000.doPost [] (.parses { slug := none, field := some "likes" })
        { slug := none, field := none } =
      P000.doPost [] (.parses { slug := some "home", field := some "likes" })
        { slug := none, field := none } :=
  ⟨(c9_default_slug_home []).1 { action := none, slug := none, field := none } rfl,
    (c9_default_slug_home []).2.1 { slug := none, field := some "likes" }
      { slug := none, field := none } rfl rfl,
    (c9_default_slug_home []).2.2.1,
    (c9_default_slug_home []).2.2.2.2 { slug := none, field := some "likes" }
      { slug := none, field := none } rfl⟩

theorem jsAdd_num (m n : Int) : jsAdd (.num m) (.num n) = .num (m + n) := rfl

theorem strAppend_one_ne_empty (s : String) : s ++ "1" ≠ "" := by
  intro h
  have h2 := congrArg String.length h
  rw [String.length_append] at h2
  have h3 : ("1" : String).length = 1 := rfl
  have h4 : ("" : String).length = 0 := rfl
  omega

theorem jsOrZero_str_ne {s : String} (h : s ≠ "") : jsOrZero (.str s) = .str s := by
  unfold jsOrZero Cell.truthy
  simp [h]

theorem jsOrZero_bumped (c : Cell) :
    jsOrZero (jsAdd (jsOrZero c) (.num 1)) = jsAdd (jsOrZero c) (.num 1) := by
  cases c with
  | num k =>
    rw [jsOrZero_num k, jsAdd_num]
    exact jsOrZero_num (k + 1)
  | str s =>
    by_cases h : s = ""
    · subst h
      rfl
    · rw [jsOrZero_str_ne h]
      show jsOrZero (.str (s ++ "1")) = .str (s ++ "1")
      exact jsOrZero_str_ne (strAppend_one_ne_empty s)
  | nan => rfl

/-- C10: duplicate-tolerant first-match consistency of apps.js.  For any
store — including stores holding several rows with the same slug — and
any valid field: the handle `ensureRow_` returns is found again by the
linear scan of `findRowBySlug_` over the ensured store; `bump_` writes
`(value || 0) + 1` into exactly that row's column (the store it leaves
behind is `st2`); the scan over the written store still selects that same
index, so the counts `bump_` returns are read back from the very row it
wrote, and their bumped field carries the freshly written value. -/
theorem c10_first_match_consistency (st st1 st2 : Store) (s f : String) (i col : Nat)
    (hf : f ∈ validFields) (hcol : colMap f = some col)
    (her : Apps.ensureRow_ st s = (i, st1))
    (hst2 : st2 = setCellD st1 i col (jsAdd (jsOrZero (getCellD st1 i col)) (.num 1))) :
    Apps.findRowBySlug_ st1 s = some i ∧
    Apps.bump_ st s f = (.ok (Apps.readCounts_ st2 s), st2) ∧
    Apps.findRowBySlug_ st2 s = some i ∧
    (Apps.readCounts_ st2 s).fieldVal f = jsAdd (jsOrZero (getCellD st1 i col)) (.num 1) := by
  obtain ⟨c2, hc2, h234⟩ := colMap_valid hf
  rw [hcol] at hc2
  injection hc2 with hc2
  subst hc2
  have hcol1 : col ≠ 1 := by rcases h234 with h | h | h <;> omega
  have hscan1 : scanSlug s st1 = some i := by
    cases hscan : scanSlug s st with
    | some j =>
      rw [ensureRow_found hscan] at her
      injection her with h1 h2
      subst h1
      subst h2
      exact hscan
    | none =>
      rw [ensureRow_new hscan] at her
      injection her with h1 h2
      subst h1
      subst h2
      have happ := scanSlug_append_none hscan (newRow s)
      rw [newRow_slugCell, if_pos rfl] at happ
      exact happ
  have hlt : i < st1.length := scanSlug_lt hscan1
  have hscan2 : scanSlug s st2 = some i := by
    subst hst2
    rw [scanSlug_setCellD s st1 i col _ hcol1]
    exact hscan1
  refine ⟨hscan1, ?_, hscan2, ?_⟩
  · subst hst2
    rw [bump_valid_eq st s hcol, her]
  · rw [fieldVal_readCounts_found hscan2 hcol]
    subst hst2
    rw [getCellD_setCellD_same st1 i col _ hlt (Or.inr h234)]
    exact jsOrZero_bumped (getCellD st1 i col)

/-- C10 witness: the statement on a store holding two rows for slug "a"
(as after a manual edit of the sheet): the bump is applied to the first row
back from it. -/
theorem c10_first_match_consistency_witness :
    Apps.findRowBySlug_
      [{ slugCell := .str "a", likes := .num 5, dislikes := .num 6, infos := .num 7 },
       { slugCell := .str "a", likes := .num 100, dislikes := .num 200, infos := .num 300 }]
      "a" = some 0 ∧
    Apps.bump_
      [{ slugCell := .str "a", likes := .num 5, dislikes := .num 6, infos := .num 7 },
       { slugCell := .str "a", likes := .num 100, dislikes := .num 200, infos := .num 300 }]
      "a" "likes" =
      (.ok (Apps.readCounts_
        [{ slugCell := .str "a", likes := .num 6, dislikes := .num 6, infos := .num 7 },
         { slugCell := .str "a", likes := .num 100, dislikes := .num 200, infos := .num 300 }]
        "a"),
       [{ slugCell := .str "a", likes := .num 6, dislikes := .num 6, infos := .num 7 },
        { slugCell := .str "a", likes := .num 100, dislikes := .num 200, infos := .num 300 }]) ∧
    Apps.findRowBySlug_
      [{ slugCell := .str "a", likes := .num 6, dislikes := .num 6, infos := .num 7 },
       { slugCell := .str "a", likes := .num 100, dislikes := .num 200, infos := .num 300 }]
      "a" = some 0 ∧
    (Apps.readCounts_
      [{ slugCell := .str "a", likes := .num 6, dislikes := .num 6, infos := .num 7 },
       { slugCell := .str "a", likes := .num 100, dislikes := .num 200, infos := .num 300 }]
      "a").fieldVal "likes" =
      jsAdd (jsOrZero (getCellD
        [{ slugCell := .str "a", likes := .num 5, dislikes := .num 6, infos := .num 7 },
         { slugCell := .str "a", likes := .num 100, dislikes := .num 200, infos := .num 300 }]
        0 2)) (.num 1) :=
  c10_first_match_consistency _ _ _ "a" "likes" 0 2 (by decide) (by decide) (by decide)
    (by decide)

theorem slug_readCounts_found {st : Store} {s : String} {i : Nat}
    (h : scanSlug s st = some i) : (Apps.readCounts_ st s).slug = getCellD st i 1 := by
  rw [readCounts_found h]

theorem slug_readCounts_none {st : Store} {s : String}
    (h : scanSlug s st = none) : (Apps.readCounts_ st s).slug = .str s := by
  rw [readCounts_none h]

/-- C2: the part_000 `bump_` never performs the claimed increment — on a
valid field its first sheet access (`getSheet_`) throws the
ReferenceError, before touching any row — while the apps.js `bump_`
satisfies the claimed contract on every store whose counter cells hold
integers (which covers every store the service itself produces): one call
raises the chosen counter of `readCounts_` by exactly 1, leaves the other
two counters and the slug unchanged, and returns the full post-increment
row. -/
theorem c2_bump_increments (st : Store) (s f : String) (hf : f ∈ validFields)
    (hnum : Apps.CountersNat st) :
    P000.bump_ st s (some f) = (.error P000.refErr, st) ∧
    ∃ st2 : Store, Apps.bump_ st s f = (.ok (Apps.readCounts_ st2 s), st2) ∧
      (∃ k : Int, (Apps.readCounts_ st s).fieldVal f = .num k ∧
        (Apps.readCounts_ st2 s).fieldVal f = .num (k + 1)) ∧
      (∀ g, g ∈ validFields → g ≠ f →
        (Apps.readCounts_ st2 s).fieldVal g = (Apps.readCounts_ st s).fieldVal g) ∧
      (Apps.readCounts_ st2 s).slug = (Apps.readCounts_ st s).slug := by
  constructor
  · simp only [P000.bump_]
    rw [if_pos hf]
    rfl
  · obtain ⟨col, hcol, h234⟩ := colMap_valid hf
    have hcol1 : col ≠ 1 := by rcases h234 with h | h | h <;> omega
    cases hscan : scanSlug s st with
    | some i =>
      have her := ensureRow_found hscan
      have hlt : i < st.length := scanSlug_lt hscan
      have hcell : Apps.counterNat (getCellD st i col) := by
        rcases h234 with h | h | h <;> subst h
        · exact (hnum i hlt).1
        · exact (hnum i hlt).2.1
        · exact (hnum i hlt).2.2
      obtain ⟨k, hk, hk0⟩ := hcell
      have hscan2 : scanSlug s (setCellD st i col
          (jsAdd (jsOrZero (getCellD st i col)) (.num 1))) = some i := by
        rw [scanSlug_setCellD s st i col _ hcol1]
        exact hscan
      refine ⟨setCellD st i col (jsAdd (jsOrZero (getCellD st i col)) (.num 1)),
        ?_, ⟨k, ?_, ?_⟩, ?_, ?_⟩
      · rw [bump_valid_eq st s hcol, her]
      · rw [fieldVal_readCounts_found hscan hcol, hk, jsOrZero_num]
      · rw [fieldVal_readCounts_found hscan2 hcol,
          getCellD_setCellD_same st i col _ hlt (Or.inr h234), hk, jsOrZero_num, jsAdd_num,
          jsOrZero_num]
      · intro g hg hgf
        obtain ⟨colg, hcolg, hg234⟩ := colMap_valid hg
        have hne : colg ≠ col := colMap_ne_of_ne hf hg hgf hcol hcolg
        rw [fieldVal_readCounts_found hscan2 hcolg,
          getCellD_setCellD_other st i i col colg _ (Or.inr (Ne.symm hne)),
          fieldVal_readCounts_found hscan hcolg]
      · rw [slug_readCounts_found hscan2, slug_readCounts_found hscan,
          getCellD_setCellD_other st i i col 1 _ (Or.inr hcol1)]
    | none =>
      have her := ensureRow_new hscan
      have happ : scanSlug s (st ++ [newRow s]) = some st.length := by
        have h0 := scanSlug_append_none hscan (newRow s)
        rw [newRow_slugCell, if_pos rfl] at h0
        exact h0
      have hlen : st.length < (st ++ [newRow s]).length := by simp
      have hcell : getCellD (st ++ [newRow s]) st.length col = .num 0 := by
        rw [getCellD_append_right st (newRow s) col]
        exact getCol_newRow_counter s h234
      have hscan2 : scanSlug s (setCellD (st ++ [newRow s]) st.length col
          (jsAdd (jsOrZero (getCellD (st ++ [newRow s]) st.length col)) (.num 1))) =
          some st.length := by
        rw [scanSlug_setCellD s _ st.length col _ hcol1]
        exact happ
      refine ⟨setCellD (st ++ [newRow s]) st.length col
          (jsAdd (jsOrZero (getCellD (st ++ [newRow s]) st.length col)) (.num 1)),
        ?_, ⟨0, ?_, ?_⟩, ?_, ?_⟩
      · rw [bump_valid_eq st s hcol, her]
      · rw [readCounts_none hscan]
        exact fieldVal_zeros hf
      · rw [fieldVal_readCounts_found hscan2 hcol,
          getCellD_setCellD_same _ st.length col _ hlen (Or.inr h234), hcell, jsOrZero_num,
          jsAdd_num, jsOrZero_num]
      · intro g hg hgf
        obtain ⟨colg, hcolg, hg234⟩ := colMap_valid hg
        have hne : colg ≠ col := colMap_ne_of_ne hf hg hgf hcol hcolg
        rw [fieldVal_readCounts_found hscan2 hcolg,
          getCellD_setCellD_other _ st.length st.length col colg _ (Or.inr (Ne.symm hne)),
          getCellD_append_right st (newRow s) colg, getCol_newRow_counter s hg234,
          readCounts_none hscan, jsOrZero_num]
        exact (fieldVal_zeros hg).symm
      · rw [slug_readCounts_found hscan2, slug_readCounts_none hscan,
          getCellD_setCellD_other _ st.length st.length col 1 _ (Or.inr hcol1),
          getCellD_append_right st (newRow s) 1]
        rfl

/-- C2 witness: the statement at the empty store, slug "test", field
"likes". -/
theorem c2_bump_increments_witness :
    P000.bump_ [] "test" (some "likes") = (.error P000.refErr, []) ∧
    ∃ st2 : Store, Apps.bump_ [] "test" "likes" = (.ok (Apps.readCounts_ st2 "test"), st2) ∧
      (∃ k : Int, (Apps.readCounts_ [] "test").fieldVal "likes" = .num k ∧
        (Apps.readCounts_ st2 "test").fieldVal "likes" = .num (k + 1)) ∧
      (∀ g, g ∈ validFields → g ≠ "likes" →
        (Apps.readCounts_ st2 "test").fieldVal g = (Apps.readCounts_ [] "test").fieldVal g) ∧
      (Apps.readCounts_ st2 "test").slug = (Apps.readCounts_ [] "test").slug :=
  c2_bump_increments [] "test" "likes" (by decide) (by intro i hi; simp at hi)

theorem bumpN_closed_form (st : Store) (s f : String) {col : Nat}
    (hcol : colMap f = some col) (h234 : col = 2 ∨ col = 3 ∨ col = 4)
    (hscan : scanSlug s st = none) (n : Nat) :
    Apps.bumpN (n + 1) st s f = st ++ [setCol (newRow s) col (.num (n + 1))] := by
  have hcol1 : col ≠ 1 := by rcases h234 with h | h | h <;> omega
  induction n with
  | zero =>
    show Apps.bumpStore (Apps.bumpN 0 st s f) s f = _
    unfold Apps.bumpN Apps.bumpStore
    rw [bump_valid_eq st s hcol, ensureRow_new hscan]
    show setCellD (st ++ [newRow s]) st.length col
        (jsAdd (jsOrZero (getCellD (st ++ [newRow s]) st.length col)) (.num 1)) = _
    rw [getCellD_append_right st (newRow s) col, getCol_newRow_counter s h234, jsOrZero_num,
      jsAdd_num, setCellD_append]
    norm_num
  | succ m ih =>
    show Apps.bumpStore (Apps.bumpN (m + 1) st s f) s f = _
    rw [ih]
    have hsc : cellToString (setCol (newRow s) col (.num (m + 1))).slugCell = s := by
      rw [setCol_slugCell _ col _ hcol1]
      exact newRow_slugCell s
    have hscan1 : scanSlug s (st ++ [setCol (newRow s) col (.num (m + 1))]) =
        some st.length := by
      rw [scanSlug_append_none hscan, hsc, if_pos rfl]
    unfold Apps.bumpStore
    rw [bump_valid_eq _ s hcol, ensureRow_found hscan1]
    show setCellD (st ++ [setCol (newRow s) col (.num (m + 1))]) st.length col
        (jsAdd (jsOrZero (getCellD (st ++ [setCol (newRow s) col (.num (m + 1))])
          st.length col)) (.num 1)) = _
    rw [getCellD_append_right st _ col, getCol_setCol_same _ col _ (Or.inr h234), jsOrZero_num,
      jsAdd_num, setCellD_append, setCol_setCol_same]
    have harith : ((m : Int) + 1) + 1 = ((m + 1 : Nat) : Int) + 1 := by push_cast; ring
    rw [harith]

/-- C7: sequential counting.  In part_000 even the first valid bump throws
the ReferenceError instead of counting, so no sequence of bumps can reach
a count there; in apps.js, starting from any store with no row for the
slug and bumping a valid field n times sequentially, `readCounts_` reports
exactly n for that field. -/
theorem c7_sequential_bumps (st : Store) (s f : String) (n : Nat) (hf : f ∈ validFields)
    (h : Apps.findRowBySlug_ st s = none) :
    P000.bump_ st s (some f) = (.error P000.refErr, st) ∧
    (Apps.readCounts_ (Apps.bumpN n st s f) s).fieldVal f = .num n := by
  obtain ⟨col, hcol, h234⟩ := colMap_valid hf
  have hcol1 : col ≠ 1 := by rcases h234 with hc | hc | hc <;> omega
  constructor
  · simp only [P000.bump_]
    rw [if_pos hf]
    rfl
  · cases n with
    | zero =>
      show (Apps.readCounts_ st s).fieldVal f = .num 0
      rw [readCounts_none h]
      exact fieldVal_zeros hf
    | succ m =>
      rw [bumpN_closed_form st s f hcol h234 h m]
      have hsc : cellToString (setCol (newRow s) col (.num (m + 1))).slugCell = s := by
        rw [setCol_slugCell _ col _ hcol1]
        exact newRow_slugCell s
      have hscan1 : scanSlug s (st ++ [setCol (newRow s) col (.num (m + 1))]) =
          some st.length := by
        rw [scanSlug_append_none h, hsc, if_pos rfl]
      rw [fieldVal_readCounts_found hscan1 hcol, getCellD_append_right st _ col,
        getCol_setCol_same _ col _ (Or.inr h234), jsOrZero_num]
      push_cast
      ring_nf

/-- C7 witness: the statement with three bumps of "likes" for the fresh
slug "seq" on the empty store. -/
theorem c7_sequential_bumps_witness :
    P000.bump_ [] "seq" (some "likes") = (.error P000.refErr, []) ∧
    (Apps.readCounts_ (Apps.bumpN 3 [] "seq" "likes") "seq").fieldVal "likes" = .num 3 :=
  c7_sequential_bumps [] "seq" "likes" 3 (by decide) rfl

theorem resetSlug_found {st : Store} {s : String} {i : Nat} (h : scanSlug s st = some i) :
    Apps.resetSlug st s =
      setCellD (setCellD (setCellD st i 2 (.num 0)) i 3 (.num 0)) i 4 (.num 0) := by
  unfold Apps.resetSlug Apps.findRowBySlug_
  rw [h]

theorem resetSlug_none {st : Store} {s : String} (h : scanSlug s st = none) :
    Apps.resetSlug st s = st := by
  unfold Apps.resetSlug Apps.findRowBySlug_
  rw [h]

theorem countersNat_setCellD (st : Store) (i col : Nat) (v : Int) (hv : 0 ≤ v)
    (hc : col = 2 ∨ col = 3 ∨ col = 4) (h : Apps.CountersNat st) :
    Apps.CountersNat (setCellD st i col (.num v)) := by
  intro j hj
  rw [setCellD_length] at hj
  have hcases : ∀ c, (c = 2 ∨ c = 3 ∨ c = 4) →
      Apps.counterNat (getCellD (setCellD st i col (.num v)) j c) := by
    intro c hcc
    by_cases hji : j = i
    · subst hji
      by_cases hcol2 : c = col
      · subst hcol2
        rw [getCellD_setCellD_same st j c _ hj (Or.inr hcc)]
        exact ⟨v, rfl, hv⟩
      · rw [getCellD_setCellD_other st j j col c _ (Or.inr fun hh => hcol2 hh.symm)]
        rcases hcc with h2 | h2 | h2 <;> subst h2
        · exact (h j hj).1
        · exact (h j hj).2.1
        · exact (h j hj).2.2
    · rw [getCellD_setCellD_other st i j col c _ (Or.inl fun hh => hji hh.symm)]
      rcases hcc with h2 | h2 | h2 <;> subst h2
      · exact (h j hj).1
      · exact (h j hj).2.1
      · exact (h j hj).2.2
  exact ⟨hcases 2 (by decide), hcases 3 (by decide), hcases 4 (by decide)⟩

theorem storeLe_setCellD_bump (st : Store) (i col : Nat) (k : Int)
    (hk : getCellD st i col = .num k) (hc : col = 2 ∨ col = 3 ∨ col = 4) :
    Apps.storeLe st (setCellD st i col (.num (k + 1))) := by
  have hcol1 : col ≠ 1 := by rcases hc with h | h | h <;> omega
  constructor
  · rw [setCellD_length]
  · intro j hj
    have hslug : getCellD (setCellD st i col (.num (k + 1))) j 1 = getCellD st j 1 := by
      by_cases hji : j = i
      · subst hji
        exact getCellD_setCellD_other st j j col 1 _ (Or.inr hcol1)
      · exact getCellD_setCellD_other st i j col 1 _ (Or.inl fun hh => hji hh.symm)
    have hcell : ∀ c, (c = 2 ∨ c = 3 ∨ c = 4) →
        Apps.cellLe (getCellD st j c) (getCellD (setCellD st i col (.num (k + 1))) j c) := by
      intro c hcc
      by_cases hji : j = i
      · subst hji
        by_cases hcol2 : c = col
        · subst hcol2
          rw [getCellD_setCellD_same st j c _ hj (Or.inr hcc), hk]
          exact Or.inr ⟨k, k + 1, rfl, rfl, by omega⟩
        · rw [getCellD_setCellD_other st j j col c _ (Or.inr fun hh => hcol2 hh.symm)]
          exact Or.inl rfl
      · rw [getCellD_setCellD_other st i j col c _ (Or.inl fun hh => hji hh.symm)]
        exact Or.inl rfl
    exact ⟨hslug, hcell 2 (by decide), hcell 3 (by decide), hcell 4 (by decide)⟩

theorem countersNat_append (st : Store) (r : Row) (h : Apps.CountersNat st)
    (h2 : Apps.counterNat r.likes ∧ Apps.counterNat r.dislikes ∧ Apps.counterNat r.infos) :
    Apps.CountersNat (st ++ [r]) := by
  intro j hj
  rw [List.length_append, List.length_singleton] at hj
  by_cases hjl : j < st.length
  · rw [getCellD_append_left st [r] j 2 hjl, getCellD_append_left st [r] j 3 hjl,
      getCellD_append_left st [r] j 4 hjl]
    exact h j hjl
  · have hje : j = st.length := by omega
    subst hje
    rw [getCellD_append_right st r 2, getCellD_append_right st r 3,
      getCellD_append_right st r 4]
    exact h2

theorem storeLe_append (st l : Store) : Apps.storeLe st (st ++ l) := by
  constructor
  · simp
  · intro j hj
    rw [getCellD_append_left st l j 1 hj, getCellD_append_left st l j 2 hj,
      getCellD_append_left st l j 3 hj, getCellD_append_left st l j 4 hj]
    exact ⟨rfl, Or.inl rfl, Or.inl rfl, Or.inl rfl⟩

theorem scanSlug_none_not_mem {s : String} {st : Store} (h : scanSlug s st = none) :
    s ∉ Apps.slugList st := by
  intro hmem
  simp only [Apps.slugList, List.mem_map] at hmem
  obtain ⟨r, hr, hrs⟩ := hmem
  exact absurd hrs ((scanSlug_none_iff s st).mp h r hr)

theorem slugsNodup_append (st : Store) (r : Row) (hnd : Apps.SlugsNodup st)
    (h : scanSlug (cellToString r.slugCell) st = none) :
    Apps.SlugsNodup (st ++ [r]) := by
  unfold Apps.SlugsNodup Apps.slugList at hnd ⊢
  rw [List.map_append, List.nodup_append]
  refine ⟨hnd, List.nodup_singleton _, ?_⟩
  intro x hx hx2
  simp only [List.map_cons, List.map_nil, List.mem_singleton] at hx2
  subst hx2
  exact scanSlug_none_not_mem h hx

theorem bump_preserves (st : Store) (s f : String) (hf : f ∈ validFields)
    (hnd : Apps.SlugsNodup st) (hnum : Apps.CountersNat st) :
    (Apps.SlugsNodup (Apps.bump_ st s f).2 ∧ Apps.CountersNat (Apps.bump_ st s f).2) ∧
      Apps.storeLe st (Apps.bump_ st s f).2 := by
  obtain ⟨col, hcol, h234⟩ := colMap_valid hf
  have hcol1 : col ≠ 1 := by rcases h234 with h | h | h <;> omega
  cases hscan : scanSlug s st with
  | some i =>
    have hlt : i < st.length := scanSlug_lt hscan
    have hcell : Apps.counterNat (getCellD st i col) := by
      rcases h234 with h | h | h <;> subst h
      · exact (hnum i hlt).1
      · exact (hnum i hlt).2.1
      · exact (hnum i hlt).2.2
    obtain ⟨k, hk, hk0⟩ := hcell
    have h2 : (Apps.bump_ st s f).2 = setCellD st i col (.num (k + 1)) := by
      rw [bump_valid_eq st s hcol, ensureRow_found hscan]
      show setCellD st i col (jsAdd (jsOrZero (getCellD st i col)) (.num 1)) = _
      rw [hk, jsOrZero_num, jsAdd_num]
    rw [h2]
    refine ⟨⟨?_, countersNat_setCellD st i col (k + 1) (by omega) h234 hnum⟩,
      storeLe_setCellD_bump st i col k hk h234⟩
    unfold Apps.SlugsNodup
    rw [slugList_setCellD st i col _ hcol1]
    exact hnd
  | none =>
    have h2 : (Apps.bump_ st s f).2 = st ++ [setCol (newRow s) col (.num 1)] := by
      rw [bump_valid_eq st s hcol, ensureRow_new hscan]
      show setCellD (st ++ [newRow s]) st.length col
          (jsAdd (jsOrZero (getCellD (st ++ [newRow s]) st.length col)) (.num 1)) = _
      rw [getCellD_append_right st (newRow s) col, getCol_newRow_counter s h234, jsOrZero_num,
        jsAdd_num, setCellD_append]
      norm_num
    rw [h2]
    have hsc : cellToString (setCol (newRow s) col (.num 1)).slugCell = s := by
      rw [setCol_slugCell _ col _ hcol1]
      exact newRow_slugCell s
    refine ⟨⟨?_, ?_⟩, storeLe_append st _⟩
    · apply slugsNodup_append st _ hnd
      rw [hsc]
      exact hscan
    · apply countersNat_append st _ hnum
      rcases h234 with h | h | h <;> subst h
      · exact ⟨⟨1, rfl, by omega⟩, ⟨0, rfl, by omega⟩, ⟨0, rfl, by omega⟩⟩
      · exact ⟨⟨0, rfl, by omega⟩, ⟨1, rfl, by omega⟩, ⟨0, rfl, by omega⟩⟩
      · exact ⟨⟨0, rfl, by omega⟩, ⟨0, rfl, by omega⟩, ⟨1, rfl, by omega⟩⟩

theorem reset_preserves (st : Store) (s : String) (hnd : Apps.SlugsNodup st)
    (hnum : Apps.CountersNat st) :
    Apps.SlugsNodup (Apps.resetSlug st s) ∧ Apps.CountersNat (Apps.resetSlug st s) := by
  cases hscan : scanSlug s st with
  | none =>
    rw [resetSlug_none hscan]
    exact ⟨hnd, hnum⟩
  | some i =>
    rw [resetSlug_found hscan]
    constructor
    · unfold Apps.SlugsNodup
      rw [slugList_setCellD _ i 4 _ (by decide), slugList_setCellD _ i 3 _ (by decide),
        slugList_setCellD _ i 2 _ (by decide)]
      exact hnd
    · exact countersNat_setCellD _ i 4 0 le_rfl (by decide)
        (countersNat_setCellD _ i 3 0 le_rfl (by decide)
          (countersNat_setCellD st i 2 0 le_rfl (by decide) hnum))

theorem resetSpec_holds (st : Store) (s : String) : Apps.resetSpec st s := by
  cases hscan : scanSlug s st with
  | none =>
    have hr : Apps.resetSlug st s = st := resetSlug_none hscan
    constructor
    · rw [hr]
    · intro i hi
      refine ⟨by rw [hr], ?_, ?_⟩
      · intro hfind
        unfold Apps.findRowBySlug_ at hfind
        rw [hscan] at hfind
        cases hfind
      · intro _
        exact ⟨by rw [hr], by rw [hr], by rw [hr]⟩
  | some i0 =>
    have hr := resetSlug_found hscan
    have hlt := scanSlug_lt hscan
    have hl2 : i0 < (setCellD st i0 2 (.num 0)).length := by
      rw [setCellD_length]
      exact hlt
    have hl3 : i0 < (setCellD (setCellD st i0 2 (.num 0)) i0 3 (.num 0)).length := by
      rw [setCellD_length, setCellD_length]
      exact hlt
    constructor
    · rw [hr, setCellD_length, setCellD_length, setCellD_length]
    · intro i hi
      have hslug : getCellD (Apps.resetSlug st s) i 1 = getCellD st i 1 := by
        rw [hr, getCellD_setCellD_other _ i0 i 4 1 _ (Or.inr (by decide)),
          getCellD_setCellD_other _ i0 i 3 1 _ (Or.inr (by decide)),
          getCellD_setCellD_other _ i0 i 2 1 _ (Or.inr (by decide))]
      refine ⟨hslug, ?_, ?_⟩
      · intro hfind
        have hieq : i = i0 := by
          unfold Apps.findRowBySlug_ at hfind
          rw [hscan] at hfind
          injection hfind with hh
          exact hh.symm
        subst hieq
        refine ⟨?_, ?_, ?_⟩
        · rw [hr, getCellD_setCellD_other _ i i 4 2 _ (Or.inr (by decide)),
            getCellD_setCellD_other _ i i 3 2 _ (Or.inr (by decide)),
            getCellD_setCellD_same st i 2 _ hlt (by decide)]
        · rw [hr, getCellD_setCellD_other _ i i 4 3 _ (Or.inr (by decide)),
            getCellD_setCellD_same _ i 3 _ hl2 (by decide)]
        · rw [hr, getCellD_setCellD_same _ i 4 _ hl3 (by decide)]
      · intro hfind
        have hne : i ≠ i0 := by
          intro hh
          subst hh
          apply hfind
          unfold Apps.findRowBySlug_
          rw [hscan]
        refine ⟨?_, ?_, ?_⟩
        · rw [hr, getCellD_setCellD_other _ i0 i 4 2 _ (Or.inl (Ne.symm hne)),
            getCellD_setCellD_other _ i0 i 3 2 _ (Or.inl (Ne.symm hne)),
            getCellD_setCellD_other _ i0 i 2 2 _ (Or.inl (Ne.symm hne))]
        · rw [hr, getCellD_setCellD_other _ i0 i 4 3 _ (Or.inl (Ne.symm hne)),
            getCellD_setCellD_other _ i0 i 3 3 _ (Or.inl (Ne.symm hne)),
            getCellD_setCellD_other _ i0 i 2 3 _ (Or.inl (Ne.symm hne))]
        · rw [hr, getCellD_setCellD_other _ i0 i 4 4 _ (Or.inl (Ne.symm hne)),
            getCellD_setCellD_other _ i0 i 3 4 _ (Or.inl (Ne.symm hne)),
            getCellD_setCellD_other _ i0 i 2 4 _ (Or.inl (Ne.symm hne))]

theorem doGet_store_effect (st : Store) (e : GetReq) :
    (Apps.doGet st e).2 = st ∨
      ∃ s2 f2, f2 ∈ validFields ∧ (Apps.doGet st e).2 = (Apps.bump_ st s2 f2).2 := by
  obtain ⟨a, sl, fl⟩ := e
  cases fl with
  | none =>
    simp only [Apps.doGet]
    by_cases h1 : jsOrDefault a "get" = "get"
    · rw [if_pos h1]
      left
      rfl
    · rw [if_neg h1]
      by_cases h2 : jsOrDefault a "get" = "bump"
      · rw [if_pos h2]
        left
        rfl
      · rw [if_neg h2]
        left
        rfl
  | some f =>
    simp only [Apps.doGet]
    by_cases h1 : jsOrDefault a "get" = "get"
    · rw [if_pos h1]
      left
      rfl
    · rw [if_neg h1]
      by_cases h2 : jsOrDefault a "get" = "bump"
      · rw [if_pos h2]
        by_cases h3 : f ≠ "" ∧ f ∈ validFields
        · rw [if_pos h3]
          right
          refine ⟨jsOrDefault sl "home", f, h3.2, ?_⟩
          rcases hb : Apps.bump_ st (jsOrDefault sl "home") f with ⟨r, st2⟩
          cases r <;> rfl
        · rw [if_neg h3]
          left
          rfl
      · rw [if_neg h2]
        left
        rfl

theorem doPost_store_effect (st : Store) (b : Body) (p : Payload) :
    (Apps.doPost st b p).2 = st ∨
      ∃ s2 f2, f2 ∈ validFields ∧ (Apps.doPost st b p).2 = (Apps.bump_ st s2 f2).2 := by
  have main : ∀ q : Payload,
      (Apps.doPost st (Body.parses q) p).2 = st ∨
        ∃ s2 f2, f2 ∈ validFields ∧
          (Apps.doPost st (Body.parses q) p).2 = (Apps.bump_ st s2 f2).2 := by
    intro q
    simp only [Apps.doPost]
    cases hfp : jsOrOpt q.field p.field with
    | none =>
      left
      rfl
    | some f =>
      dsimp only
      by_cases h3 : f ≠ "" ∧ f ∈ validFields
      · rw [if_pos h3]
        right
        refine ⟨jsOrDefault (jsOrOpt q.slug p.slug) "home", f, h3.2, ?_⟩
        rcases hb : Apps.bump_ st (jsOrDefault (jsOrOpt q.slug p.slug) "home") f
          with ⟨r, st2⟩
        cases r <;> rfl
      · rw [if_neg h3]
        left
        rfl
  cases b with
  | parses q => exact main q
  | malformed =>
    have heq : Apps.doPost st Body.malformed p = Apps.doPost st (Body.parses p) p := rfl
    rw [heq]
    exact main p

theorem reachable_inv (st : Store) (h : Apps.Reachable st) :
    Apps.SlugsNodup st ∧ Apps.CountersNat st := by
  induction h with
  | init =>
    constructor
    · simp [Apps.SlugsNodup, Apps.slugList]
    · intro i hi
      simp at hi
  | get st0 e hr ih =>
    rcases doGet_store_effect st0 e with heq | ⟨s2, f2, hf2, heq⟩
    · rw [heq]
      exact ih
    · rw [heq]
      exact (bump_preserves st0 s2 f2 hf2 ih.1 ih.2).1
  | post st0 b p hr ih =>
    rcases doPost_store_effect st0 b p with heq | ⟨s2, f2, hf2, heq⟩
    · rw [heq]
      exact ih
    · rw [heq]
      exact (bump_preserves st0 s2 f2 hf2 ih.1 ih.2).1
  | reset st0 s hr ih =>
    exact reset_preserves st0 s ih.1 ih.2

/-- C8: every store reachable from the empty table by sequential public
operations (entry-point calls plus `resetSlug` maintenance) has at most
one row per slug and only non-negative integer counters; from any such
state a valid `bump_` never decreases an existing cell — it keeps every
slug, raises exactly the chosen counter by 1 and at most appends one
fresh row — and `resetSlug`, the one maintenance operation, only rewrites
the matched row's three counters to 0 and touches nothing else. -/
theorem c8_reachable_invariant (st : Store) (h : Apps.Reachable st) :
    (Apps.SlugsNodup st ∧ Apps.CountersNat st) ∧
    (∀ s f, f ∈ validFields → Apps.storeLe st (Apps.bump_ st s f).2) ∧
    (∀ s, Apps.resetSpec st s) := by
  have hinv := reachable_inv st h
  refine ⟨hinv, ?_, ?_⟩
  · intro s f hf
    exact (bump_preserves st s f hf hinv.1 hinv.2).2
  · intro s
    exact resetSpec_holds st s

/-- C8 witness: the invariant at the store reached by one GET bump of
likes for "home" from the empty table, with the monotonicity and reset
descriptions instantiated there. -/
theorem c8_reachable_invariant_witness :
    (Apps.SlugsNodup
        (Apps.doGet [] { action := some "bump", slug := some "home", field := some "likes" }).2 ∧
      Apps.CountersNat
        (Apps.doGet [] { action := some "bump", slug := some "home", field := some "likes" }).2) ∧
    Apps.storeLe
      (Apps.doGet [] { action := some "bump", slug := some "home", field := some "likes" }).2
      (Apps.bump_
        (Apps.doGet [] { action := some "bump", slug := some "home", field := some "likes" }).2
        "home" "likes").2 ∧
    Apps.resetSpec
      (Apps.doGet [] { action := some "bump", slug := some "home", field := some "likes" }).2
      "home" :=
  ⟨(c8_reachable_invariant _
      (Apps.Reachable.get [] { action := some "bump", slug := some "home", field := some "likes" }
        Apps.Reachable.init)).1,
    (c8_reachable_invariant _
      (Apps.Reachable.get [] { action := some "bump", slug := some "home", field := some "likes" }
        Apps.Reachable.init)).2.1 "home" "likes" (by decide),
    (c8_reachable_invariant _
      (Apps.Reachable.get [] { action := some "bump", slug := some "home", field := some "likes" }
        Apps.Reachable.init)).2.2 "home"⟩
